import Mathlib

/-!
Verification of the scotus-rss incremental feed pipeline.

Shallow embedding of `scripts/html_scotus_opinions.py`,
`scripts/scotus_summaries.py` and (where cited) `scripts/generate_feed.py`.
External collaborators (HTTP transport, BeautifulSoup parsing, the Gemini
client, the `markdown` renderer, `dateutil` parsing, `urljoin`) are passed in
as function parameters, mirroring the spec's scoping; all in-repository logic
is translated concretely.
-/

namespace ScotusRss

/-! ### Python string primitives -/

/-- ASCII whitespace as recognized by Python `str.strip()` (the code points
relevant to this code base). -/
def pyWsChar (c : Char) : Bool :=
  c = ' ' ∨ c = '\t' ∨ c = '\n' ∨ c = '\r' ∨ c = '\x0B' ∨ c = '\x0C'

/-- Python `str.strip()`. -/
def pyStrip (s : String) : String :=
  ⟨((s.data.dropWhile pyWsChar).reverse.dropWhile pyWsChar).reverse⟩

/-- The character class of the `_invalid_xml_10` regex
`[\x00-\x08\x0B\x0C\x0E-\x1F\uD800-\uDFFF￾￿]` shared by all three
scripts. -/
def invalidXml10 (c : Char) : Bool :=
  (c.val ≤ 0x08) ∨ c.val = 0x0B ∨ c.val = 0x0C ∨
  (0x0E ≤ c.val ∧ c.val ≤ 0x1F) ∨
  (0xD800 ≤ c.val ∧ c.val ≤ 0xDFFF) ∨ c.val = 0xFFFE ∨ c.val = 0xFFFF

/-- `xml_safe`: substitutes every invalid-XML character with the empty string.
(The Python `None` guard is outside the model: inputs are strings.) -/
def xml_safe (s : String) : String :=
  ⟨s.data.filter (fun c => ¬ invalidXml10 c)⟩

/-! ### `html_scotus_opinions.py` — summary feed data model -/

/-- One item of the primary feed as returned by `parse_rss_items`:
`guid`, `title`, `link`, `pubDate` already `.strip()`ed there,
`description_html` raw. -/
structure SrcItem where
  guid : String
  title : String
  link : String
  pubDate : String
  description_html : String
deriving DecidableEq

/-- One `<item>` of the summary document as built by `append_summary_item`. -/
structure SumItem where
  guid : String
  title : String
  link : String
  pubDate : Option String
  description : String
deriving DecidableEq

/-- The `<channel>` element of `summary.xml`. -/
structure SummaryDoc where
  chanTitle : Option String
  chanLink : Option String
  chanDescription : Option String
  chanLanguage : Option String
  lastBuildDate : Option String
  items : List SumItem
deriving DecidableEq

/-- A parsed `summary.xml` file: its root may or may not contain a
`<channel>` element. -/
structure SummaryFile where
  channel : Option SummaryDoc
deriving DecidableEq

def TITLE : String :=
  "Supreme Court of the United States - Recent Decisions"

def CHANNEL_LINK : String := "https://www.law.cornell.edu/supremecourt/text"

/-- `load_existing_summary_guids`: the argument is the parsed file
(`none` = file absent).  Collects the non-empty stripped `guid` texts.
(Python builds a `set`; the model keeps the list, used only for membership.) -/
def load_existing_summary_guids (file : Option SummaryFile) : List String :=
  match file with
  | none => []
  | some f =>
    match f.channel with
    | none => []
    | some d =>
      d.items.filterMap fun i =>
        let g := pyStrip i.guid
        if g = "" then none else some g

/-- `ensure_summary_feed_root`: parse the file if present, else synthesize the
RSS 2.0 skeleton (whose `lastBuildDate` is the formatted current time `now`). -/
def ensure_summary_feed_root (now : String) (file : Option SummaryFile) :
    SummaryFile :=
  match file with
  | some f => f
  | none =>
    { channel := some
        { chanTitle := some (TITLE ++ " — Summaries"),
          chanLink := some CHANNEL_LINK,
          chanDescription :=
            some "Model-written summaries corresponding to the main feed items.",
          chanLanguage := some "en-us",
          lastBuildDate := some now,
          items := [] } }

/-- `append_summary_item`: the `<item>` appended for one missing source item. -/
def append_summary_item (src : SrcItem) (summary_text : String) : SumItem :=
  { guid := xml_safe src.guid,
    title := xml_safe src.title,
    link := xml_safe src.link,
    pubDate := if src.pubDate ≠ "" then some (xml_safe src.pubDate) else none,
    description := xml_safe summary_text }

/-! ### `md_to_html` and its fallback -/

/-- The module `html_scotus_opinions.py` never defines `REQUIRED_HEADINGS`;
the name lookup in `md_to_html`'s fallback loop therefore raises `NameError`.
`none` models the absent binding in the module's global namespace. -/
def REQUIRED_HEADINGS? : Option (List String) := none

/-- Models `re.sub(r"\*\*(.+?)\*\*", r"<strong>\1</strong>", html)` applied to
the pieces produced by splitting on the delimiter (an unmatched final
delimiter is restored literally).  Dead code in the module: the fallback
raises `NameError` before its result is used. -/
def subDelim (tagOpen tagClose : String) : List String → String
  | [] => ""
  | [p] => p
  | [p, q] => p ++ "**" ++ q
  | p :: q :: rest => p ++ tagOpen ++ q ++ tagClose ++ subDelim tagOpen tagClose rest

def subBold (s : String) : String :=
  subDelim "<strong>" "</strong>" (s.splitOn "**")

def subItalics (s : String) : String :=
  subDelim "<em>" "</em>" (s.splitOn "*")

/-- The paragraph step of the fallback: split on blank lines, wrap in `<p>`,
replace inner newlines with `<br/>`.  Dead code, see `REQUIRED_HEADINGS?`. -/
def paragraphize (html : String) : String :=
  let parts := ((html.splitOn "\n\n").map pyStrip).filter (· ≠ "")
  String.intercalate "\n"
    (parts.map fun p => "<p>" ++ p.replace "\n" "<br/>" ++ "</p>")

/-- The `except` branch of `md_to_html`.  It computes the markdown
substitutions, then the `for h in REQUIRED_HEADINGS:` header evaluates the
undefined name and raises `NameError`. -/
def md_to_html_fallback (md : String) : Except String String :=
  let html := subItalics (subBold md)
  match REQUIRED_HEADINGS? with
  | none => Except.error "NameError: name REQUIRED_HEADINGS is not defined"
  | some hs =>
    Except.ok (paragraphize
      (hs.foldl (fun acc h => acc.replace h ("<h3>" ++ (⟨h.data.dropLast⟩ : String) ++ "</h3>")) html))

/-- `md_to_html`, parameterized over the external `markdown.markdown`
renderer (`render`), which may raise. -/
def md_to_html (render : String → Except String String) (md : String) :
    Except String String :=
  let md := pyStrip md
  match render md with
  | Except.ok h => Except.ok h
  | Except.error _ => md_to_html_fallback md

/-! ### `update_summary_feed` -/

/-- The `missing` selection of `update_summary_feed`:
`[it for it in feed_items if it["guid"] and it["guid"] not in existing]`. -/
def missingItems (feedItems : List SrcItem) (file : Option SummaryFile) :
    List SrcItem :=
  let existing := load_existing_summary_guids file
  feedItems.filter fun it => it.guid ≠ "" ∧ ¬ existing.contains it.guid

/-- The per-missing-item work inside the loop of `update_summary_feed`:
`html_to_text` (external BeautifulSoup pipeline, parameter `h2t`), the
30 000-character truncation, `gemini_summarize` (parameter `sumz`), and
`md_to_html` over the external renderer `mdr`.  An exception anywhere
propagates (`Except.error`). -/
def summarizeMissingItem (h2t : String → String)
    (sumz : String → Except String String)
    (mdr : String → Except String String) (it : SrcItem) :
    Except String SumItem :=
  let extracted := h2t it.description_html
  let extracted :=
    if extracted.length > 30000
    then (⟨extracted.data.take 30000⟩ : String) ++ "\n\n[Truncated]"
    else extracted
  match sumz extracted with
  | Except.error e => Except.error e
  | Except.ok summary_md =>
    match md_to_html mdr summary_md with
    | Except.error e => Except.error e
    | Except.ok summary_html => Except.ok (append_summary_item it summary_html)

/-- The loop of `update_summary_feed` over `missing`, in source order; the
first uncaught exception aborts the whole call before any write. -/
def processMissing (h2t : String → String)
    (sumz : String → Except String String)
    (mdr : String → Except String String) :
    List SrcItem → Except String (List SumItem)
  | [] => Except.ok []
  | it :: rest =>
    match summarizeMissingItem h2t sumz mdr it with
    | Except.error e => Except.error e
    | Except.ok s =>
      match processMissing h2t sumz mdr rest with
      | Except.error e => Except.error e
      | Except.ok others => Except.ok (s :: others)

/-- The items currently in the channel of the (possibly absent) file. -/
def channelItems (file : Option SummaryFile) : List SumItem :=
  match file with
  | none => []
  | some f =>
    match f.channel with
    | none => []
    | some d => d.items

/-- `update_summary_feed`.  The result is
`Except.ok (written?, added)` where `written? = none` means the file was not
rewritten (the early no-op return), and `some doc` is the document written
back; `Except.error` models an uncaught exception (nothing written). -/
def update_summary_feed (h2t : String → String)
    (sumz : String → Except String String)
    (mdr : String → Except String String) (now : String)
    (feedItems : List SrcItem) (file : Option SummaryFile) :
    Except String (Option SummaryDoc × Nat) :=
  let missing := missingItems feedItems file
  if missing.isEmpty then Except.ok (none, 0)
  else
    match (ensure_summary_feed_root now file).channel with
    | none => Except.error "summary.xml missing <channel> root."
    | some ch =>
      match processMissing h2t sumz mdr missing with
      | Except.error e => Except.error e
      | Except.ok newItems =>
        Except.ok
          (some { ch with lastBuildDate := some now,
                          items := ch.items ++ newItems },
           newItems.length)

/-! ### `scotus_summaries.py` — cached summary feed -/

/-- One upstream case produced by `fetch_recent_cases`. -/
structure CaseRec where
  title : String
  url : String
  meta : String
  decided : String
  docket : String
deriving DecidableEq

/-- One value of the JSON cache mapping (`data/summaries_cache.json`). -/
structure CacheEntry where
  decided : String
  summary : String
  updated_at : String
deriving DecidableEq

/-- The cache mapping, a Python `dict` keyed by case URL: an association list
with pairwise-distinct keys, in insertion order. -/
abbrev Cache := List (String × CacheEntry)

/-- Python `cache[key] = value`: an existing key keeps its position, a new key
is appended. -/
def dictSet (c : Cache) (k : String) (v : CacheEntry) : Cache :=
  if (List.lookup k c).isSome
  then c.map fun p => if p.1 = k then (k, v) else p
  else c ++ [(k, v)]

/-- `build_prompt` of `scotus_summaries.py`. -/
def build_prompt (extracted_text : String) : String :=
  String.intercalate "\n"
    [ "You are a careful legal editor. Do not invent facts; if missing, write \x27Not stated.\x27",
      "Write ~300 words total (260–340). Plain English but legally precise. Avoid long quotes.",
      "",
      "IMPORTANT:",
      "- Do NOT include the case name/caption, docket number, court name, decided date, or source URL.",
      "- Do NOT start with \x27In this case...\x27 + caption. Assume metadata is shown elsewhere.",
      "",
      "Output EXACTLY these headings, in this order:",
      "Background:",
      "Holding:",
      "Reasoning:",
      "Outcome:",
      "",
      "Background should include procedural posture + what question the Court answered (if stated).",
      "Holding should be 1–2 sentences.",
      "Outcome must say affirmed/reversed/vacated/remanded and what happens next (if stated).",
      "",
      "Source text:",
      extracted_text ]

/-- The fixed part of the placeholder summary of `build_summary_rss`'s
`except` branch. -/
def fallbackPre : String :=
  "Background:\nNot stated.\n\nHolding:\nNot stated.\n\nReasoning:\nNot stated.\n\nOutcome:\nNot stated.\n\nError: "

/-- The placeholder summary assigned in the `except` branch of
`build_summary_rss`:
`f"Background:\nNot stated.\n\n...\n\nError: {err}"`. -/
def fallbackSummary (err : String) : String := fallbackPre ++ err

/-- The `try` block of `build_summary_rss` for one case: fetch the page
(external transport `fetchHtml`), run `extract_case_text_for_llm` (external
BeautifulSoup pipeline `extract`), reject empty extraction, build the prompt,
call `gemini_summarize` (external client `summarize`), reject an empty
summary.  Any raised exception becomes `Except.error` with its `str(e)`. -/
def attemptSummary (fetchHtml : String → Except String String)
    (extract : String → String)
    (summarize : String → Except String String) (url : String) :
    Except String String :=
  match fetchHtml url with
  | Except.error e => Except.error e
  | Except.ok case_html =>
    let extracted := extract case_html
    if extracted = "" then Except.error "Could not extract case text from page."
    else
      match summarize (build_prompt extracted) with
      | Except.error e => Except.error e
      | Except.ok summary =>
        if summary = "" then Except.error "Empty summary from model."
        else Except.ok summary

/-- One entry of the summaries feed (`fe.id/title/link/pubDate/description`).
`pubDate` carries the result of `parse_decided_to_dt` (external `dateutil`
parsing plus the clock), supplied as the parameter `pubDateOf`. -/
structure SumEntry where
  guid : String
  title : String
  link : String
  pubDate : String
  description : String
deriving DecidableEq

def mkSummaryEntry (c : CaseRec) (pubDateOf : String → String)
    (summary : String) : SumEntry :=
  { guid := xml_safe c.url,
    title := xml_safe c.title,
    link := xml_safe c.url,
    pubDate := pubDateOf c.decided,
    description := xml_safe summary }

/-- Outcome of the per-case body of `build_summary_rss`'s loop.
`usedCache = true` exactly when the `if cached and cached.get("decided") ==
decided and cached.get("summary"):` branch was taken. -/
structure StepOut where
  entry : SumEntry
  cache : Cache
  usedCache : Bool
deriving DecidableEq

/-- The cache-miss / invalid-entry path: run the `try` block; on success store
the new cache entry (with `updated_at = nowIso`), on failure fall back to the
placeholder and leave the cache untouched. -/
def freshCase (fetchHtml : String → Except String String)
    (extract : String → String)
    (summarize : String → Except String String)
    (nowIso : String) (pubDateOf : String → String)
    (cache : Cache) (c : CaseRec) : StepOut :=
  match attemptSummary fetchHtml extract summarize c.url with
  | Except.ok summary =>
    { entry := mkSummaryEntry c pubDateOf summary,
      cache := dictSet cache c.url
        { decided := c.decided, summary := summary, updated_at := nowIso },
      usedCache := false }
  | Except.error e =>
    { entry := mkSummaryEntry c pubDateOf (fallbackSummary e),
      cache := cache,
      usedCache := false }

/-- The body of `build_summary_rss`'s `for case in cases:` loop for one case. -/
def processCase (fetchHtml : String → Except String String)
    (extract : String → String)
    (summarize : String → Except String String)
    (nowIso : String) (pubDateOf : String → String)
    (cache : Cache) (c : CaseRec) : StepOut :=
  match List.lookup c.url cache with
  | some e =>
    if e.decided = c.decided ∧ e.summary ≠ "" then
      { entry := mkSummaryEntry c pubDateOf e.summary,
        cache := cache,
        usedCache := true }
    else freshCase fetchHtml extract summarize nowIso pubDateOf cache c
  | none => freshCase fetchHtml extract summarize nowIso pubDateOf cache c

/-- `build_summary_rss` restricted to its loop: the emitted entries in case
order and the final cache (which `save_cache(cache)` then persists).  The
channel-level metadata emitted through feedgen is constant and omitted. -/
def build_summary_rss (fetchHtml : String → Except String String)
    (extract : String → String)
    (summarize : String → Except String String)
    (nowIso : String) (pubDateOf : String → String)
    (cache : Cache) : List CaseRec → List SumEntry × Cache
  | [] => ([], cache)
  | c :: rest =>
    let st := processCase fetchHtml extract summarize nowIso pubDateOf cache c
    let tail := build_summary_rss fetchHtml extract summarize nowIso pubDateOf st.cache rest
    (st.entry :: tail.1, tail.2)

/-! ### `save_cache` — serialization and file effects -/

def CACHE_PATH : String := "data/summaries_cache.json"

/-- JSON string escaping as performed by `json.dump` with
`ensure_ascii=False`: backslash, double quote, and control characters are
escaped, everything else is kept verbatim. -/
def jsonEscapeChar (c : Char) : List Char :=
  if c = '"' then ['\\', '"']
  else if c = '\\' then ['\\', '\\']
  else if c = '\n' then ['\\', 'n']
  else if c = '\r' then ['\\', 'r']
  else if c = '\t' then ['\\', 't']
  else if c.val < 0x20 then
    let lo := c.val.toNat % 16
    let hi := (c.val.toNat / 16) % 16
    let hexDigit := fun (n : Nat) => if n < 10 then Char.ofNat (48 + n) else Char.ofNat (87 + n)
    ['\\', 'u', '0', '0', hexDigit hi, hexDigit lo]
  else [c]

def jsonEscape (s : String) : String :=
  ⟨s.data.flatMap jsonEscapeChar⟩

/-- One cache value rendered by `json.dump(..., indent=2, sort_keys=True)`;
the keys `decided < summary < updated_at` are already in sorted order. -/
def renderEntry (e : CacheEntry) : String :=
  "\x7b\n    \"decided\": \"" ++ jsonEscape e.decided ++
  "\",\n    \"summary\": \"" ++ jsonEscape e.summary ++
  "\",\n    \"updated_at\": \"" ++ jsonEscape e.updated_at ++ "\"\n  \x7d"

/-- Render the top-level object from an already key-sorted entry list. -/
def renderCache (l : List (String × CacheEntry)) : String :=
  match l with
  | [] => "\x7b\x7d"
  | _ =>
    "\x7b\n" ++
    String.intercalate ",\n"
      (l.map fun p => "  \"" ++ jsonEscape p.1 ++ "\": " ++ renderEntry p.2) ++
    "\n\x7d"

/-- Python string comparison (code-point lexicographic), as used by
`sort_keys=True`. -/
def charsLe : List Char → List Char → Bool
  | [], _ => true
  | _ :: _, [] => false
  | c :: cs, d :: ds =>
    if c.val.toNat < d.val.toNat then true
    else if d.val.toNat < c.val.toNat then false
    else charsLe cs ds

def strLe (a b : String) : Bool := charsLe a.data b.data

/-- Key order used by `sort_keys=True`. -/
def keyLe (a b : String × CacheEntry) : Prop := strLe a.1 b.1 = true

instance : DecidableRel keyLe := fun a b =>
  inferInstanceAs (Decidable (strLe a.1 b.1 = true))

def insertByKey (p : String × CacheEntry) :
    List (String × CacheEntry) → List (String × CacheEntry)
  | [] => [p]
  | q :: t => if strLe p.1 q.1 then p :: q :: t else q :: insertByKey p t

def sortByKey : List (String × CacheEntry) → List (String × CacheEntry)
  | [] => []
  | p :: t => insertByKey p (sortByKey t)

/-- The bytes `json.dump(cache, f, ensure_ascii=False, indent=2,
sort_keys=True)` writes for the mapping `cache`. -/
def serializeCache (c : Cache) : String :=
  renderCache (sortByKey c)

/-- File-system effects, to state what `save_cache` does and does not do. -/
inductive FsAction where
  | makedirs (p : String)
  | openWrite (p : String)
  | writeStr (s : String)
  | rename (src dst : String)
deriving DecidableEq

def FsAction.isRename : FsAction → Bool
  | FsAction.rename _ _ => true
  | _ => false

/-- `save_cache(cache)`: `os.makedirs(dirname, exist_ok=True)`, then open the
target path itself for writing and dump into it.  No temporary file and no
rename is involved. -/
def save_cache (cache : Cache) : List FsAction :=
  [FsAction.makedirs "data",
   FsAction.openWrite CACHE_PATH,
   FsAction.writeStr (serializeCache cache)]

/-! ### Regex matchers used by the scripts

Concrete translations of the `re` patterns, specialised to the searches the
scripts perform.  Python `\s` is modelled by its ASCII class `pyWsChar`. -/

/-- Case-insensitive literal match; returns the remaining input. -/
def matchLitCI : List Char → List Char → Option (List Char)
  | [], rest => some rest
  | _ :: _, [] => none
  | c :: cs, r :: rs => if r.toLower = c.toLower then matchLitCI cs rs else none

/-- A non-negative decimal number `mant / 10 ^ fdigits`, the exact value of a
parsed `float` literal (kept unreduced so that kernel evaluation stays
structural). -/
structure PyFloat where
  mant : ℕ
  fdigits : ℕ
deriving DecidableEq

/-- The rational value of a parsed decimal. -/
def PyFloat.val (x : PyFloat) : ℚ := (x.mant : ℚ) / (10 : ℚ) ^ x.fdigits

/-- `x + 0.5`, exactly. -/
def PyFloat.addHalf (x : PyFloat) : PyFloat :=
  match x.fdigits with
  | 0 => { mant := 10 * x.mant + 5, fdigits := 1 }
  | e + 1 => { mant := x.mant + 5 * 10 ^ e, fdigits := e + 1 }

/-- `float(s)` for the numeric strings this code base feeds it (optionally
whitespace-padded digit/dot strings); `none` models `ValueError`.  Exotic
accepted forms (signs, exponents, `inf`) cannot arise from the call sites
modelled here. -/
def pyFloat (s : String) : Option PyFloat :=
  let cs := (pyStrip s).data
  if cs = [] then none
  else if cs.any (fun c => ¬ (c.isDigit ∨ c = '.')) then none
  else if ((cs.filter (· = '.')).length > 1) then none
  else if cs.all (· = '.') then none
  else
    let ip := cs.takeWhile (· ≠ '.')
    let fp := (cs.dropWhile (· ≠ '.')).tail
    let natOfDigits : List Char → Nat :=
      fun l => l.foldl (fun n c => n * 10 + (c.toNat - 48)) 0
    some { mant := natOfDigits ip * 10 ^ fp.length + natOfDigits fp,
           fdigits := fp.length }

/-- Match of `_retry_re = re.compile(r"retry in\s+([0-9.]+)s", re.I)` at the
head of the input, returning the captured group. -/
def matchRetryInAt (cs : List Char) : Option String :=
  match matchLitCI "retry in".data cs with
  | none => none
  | some rest =>
    let ws := rest.takeWhile pyWsChar
    if ws = [] then none
    else
      let r2 := rest.drop ws.length
      let num := r2.takeWhile fun c => c.isDigit ∨ c = '.'
      if num = [] then none
      else
        match r2.drop num.length with
        | c :: _ => if c.toLower = 's' then some ⟨num⟩ else none
        | [] => none

def searchRetryIn : List Char → Option String
  | [] => none
  | c :: tl =>
    match matchRetryInAt (c :: tl) with
    | some s => some s
    | none => searchRetryIn tl

/-- `_retry_re.search(msg)`, returning the captured seconds string. -/
def retryInFind (s : String) : Option String := searchRetryIn s.data

/-- Match of `DECIDED_RE = re.compile(r"decided date:\s*([A-Za-z]+\s+\d{1,2},\s+\d{4})", re.I)`
at the head of the input, returning the captured group.  (A digit run of
length ≥ 3 after the month makes the pattern fail at this start, matching the
backtracking behaviour of `\d{1,2}` followed by a comma.) -/
def matchDecidedAt (cs : List Char) : Option String :=
  match matchLitCI "decided date:".data cs with
  | none => none
  | some rest =>
    let ws0 := rest.takeWhile pyWsChar
    let r1 := rest.drop ws0.length
    let letters := r1.takeWhile Char.isAlpha
    if letters = [] then none
    else
      let r2 := r1.drop letters.length
      let ws1 := r2.takeWhile pyWsChar
      if ws1 = [] then none
      else
        let r3 := r2.drop ws1.length
        let day := r3.takeWhile Char.isDigit
        if day = [] ∨ day.length > 2 then none
        else
          match r3.drop day.length with
          | ',' :: r4 =>
            let ws2 := r4.takeWhile pyWsChar
            if ws2 = [] then none
            else
              let r5 := r4.drop ws2.length
              let year := r5.takeWhile Char.isDigit
              if year.length < 4 then none
              else some ⟨letters ++ ws1 ++ day ++ [','] ++ ws2 ++ year.take 4⟩
          | _ => none

def searchDecided : List Char → Option String
  | [] => none
  | c :: tl =>
    match matchDecidedAt (c :: tl) with
    | some s => some s
    | none => searchDecided tl

/-- `DECIDED_RE.search(meta)`, returning the captured date string. -/
def decidedFind (s : String) : Option String := searchDecided s.data

def isWordChar (c : Char) : Bool := c.isAlphanum ∨ c = '_'

/-- Match of `NO_RE = re.compile(r"\bNo\.\s*([^\s]+)", re.I)` at the head of
the input (the word boundary is checked by the caller). -/
def matchDocketAt (cs : List Char) : Option String :=
  match matchLitCI "no.".data cs with
  | none => none
  | some rest =>
    let ws := rest.takeWhile pyWsChar
    let r1 := rest.drop ws.length
    let tok := r1.takeWhile fun c => ¬ pyWsChar c
    if tok = [] then none else some ⟨tok⟩

def searchDocketAux : Option Char → List Char → Option String
  | _, [] => none
  | prev, c :: tl =>
    let boundaryOk := match prev with
      | none => true
      | some p => ¬ isWordChar p
    match (if boundaryOk then matchDocketAt (c :: tl) else none) with
    | some s => some s
    | none => searchDocketAux (some c) tl

/-- `NO_RE.search(meta)`, returning the captured docket token. -/
def docketFind (s : String) : Option String := searchDocketAux none s.data

/-! ### `gemini_summarize` of `html_scotus_opinions.py` — retry loop -/

/-- An HTTP response as observed by the retry loop.  `candidateText` models
`data["candidates"][0]["content"]["parts"][0]["text"]` of a 200 body. -/
structure GResponse where
  status : Nat
  body : String
  retryAfter : Option String
  candidateText : String
deriving DecidableEq

/-- `maybe_sleep_retry_in(msg)`: no pattern → returns `False`; pattern whose
group does not parse as a float → uncaught `ValueError`; otherwise sleeps
`seconds + 0.5` and returns `True`. -/
inductive RetrySleep where
  | noMatch
  | valueError
  | slept (q : PyFloat)
deriving DecidableEq

def maybe_sleep_retry_in (msg : String) : RetrySleep :=
  match retryInFind msg with
  | none => RetrySleep.noMatch
  | some s =>
    match pyFloat s with
    | none => RetrySleep.valueError
    | some q => RetrySleep.slept q.addHalf

/-- Observable events of the attempt loop: an HTTP POST for attempt `i`, or a
`time.sleep` of `q` seconds. -/
inductive Event where
  | post (i : Nat)
  | sleepFor (q : PyFloat)
deriving DecidableEq

/-- Result of the `for attempt in range(8):` loop for one candidate model. -/
inductive CandRes where
  | ok (text : String)
  | nextModel (body : String)
  | raised (msg : String)
  | valueError
  | exhausted
deriving DecidableEq

/-- `f"Gemini API error {r.status_code}: {r.text[:800]}"`. -/
def apiErrMsg (r : GResponse) : String :=
  "Gemini API error " ++ toString r.status ++ ": " ++ (⟨r.body.data.take 800⟩ : String)

/-- The `for attempt in range(8):` loop of `gemini_summarize` for a single
candidate; `resp i` is the response to the `i`-th POST, the first component
collects the POST/sleep events in order. -/
def candidateLoop (resp : Nat → GResponse) : Nat → Nat → List Event × CandRes
  | 0, _ => ([], CandRes.exhausted)
  | fuel + 1, i =>
    let r := resp i
    if r.status = 200 then ([Event.post i], CandRes.ok (pyStrip r.candidateText))
    else if r.status = 404 then ([Event.post i], CandRes.nextModel r.body)
    else if r.status = 429 ∨ r.status = 503 then
      match maybe_sleep_retry_in r.body with
      | RetrySleep.slept q =>
        let t := candidateLoop resp fuel (i + 1)
        (Event.post i :: Event.sleepFor q :: t.1, t.2)
      | RetrySleep.valueError => ([Event.post i], CandRes.valueError)
      | RetrySleep.noMatch =>
        match r.retryAfter with
        | some ra =>
          match pyFloat ra with
          | some q =>
            let t := candidateLoop resp fuel (i + 1)
            (Event.post i :: Event.sleepFor q.addHalf :: t.1, t.2)
          | none => ([Event.post i], CandRes.raised (apiErrMsg r))
        | none => ([Event.post i], CandRes.raised (apiErrMsg r))
    else ([Event.post i], CandRes.raised (apiErrMsg r))

/-- Number of POST attempts recorded in a trace. -/
def postsIn (tr : List Event) : Nat :=
  tr.countP fun e => match e with
    | Event.post _ => true
    | _ => false

/-- The candidate list: the `GEMINI_MODEL` override (if set) followed by the
built-in fallbacks. -/
def gemini_candidates (envModel : Option String) : List String :=
  (match envModel with
   | some m => [m]
   | none => []) ++ ["gemma-3-12b-it", "gemma-3-27b-it"]

/-- The final `RuntimeError` after all candidates are exhausted (list
formatting approximated; content irrelevant to the claims). -/
def noModelMsg (candidates availableModels : List String)
    (lastErr : Option String) : String :=
  "No candidate Gemini model worked for generateContent.\n" ++
  "Tried: " ++ String.intercalate ", " candidates ++ "\n" ++
  "Models available to your key (sample): " ++
  String.intercalate ", " (availableModels.take 25) ++ "\n" ++
  "Last error: " ++
  (match lastErr with
   | some e => (⟨e.data.take 300⟩ : String)
   | none => "None")

/-- The `for model in candidates:` loop; `resp m i` is the response to the
`i`-th POST against model `m`, `availableModels` the diagnostic
`list_gemini_models` result. -/
def geminiLoop (resp : String → Nat → GResponse) (availableModels : List String)
    (candidatesAll : List String) :
    List String → Option String → Except String String
  | [], lastErr => Except.error (noModelMsg candidatesAll availableModels lastErr)
  | m :: rest, lastErr =>
    match (candidateLoop (resp m) 8 0).2 with
    | CandRes.ok t => Except.ok t
    | CandRes.nextModel body =>
      geminiLoop resp availableModels candidatesAll rest (some body)
    | CandRes.raised msg => Except.error msg
    | CandRes.valueError =>
      Except.error "ValueError: could not convert string to float"
    | CandRes.exhausted => geminiLoop resp availableModels candidatesAll rest lastErr

/-- `gemini_summarize` of `html_scotus_opinions.py` (transport and
environment abstracted; the prompt build does not influence control flow). -/
def gemini_summarize (resp : String → Nat → GResponse)
    (availableModels : List String) (envModel : Option String) :
    Except String String :=
  let candidates := gemini_candidates envModel
  geminiLoop resp availableModels candidates candidates none

/-! ### `fetch_recent_cases` -/

/-- The queries `fetch_recent_cases` performs against the parsed listing page:
whether the `h2` titled "Most Recent Decisions" exists, the `dl` following it,
and for each `dt` its `a[href]` (text and href) and following `dd` text. -/
structure DtNode where
  anchor : Option (String × String)
  dd : Option String
deriving DecidableEq

structure ListingSoup where
  recentH2 : Bool
  dl : Option (List DtNode)
deriving DecidableEq

def BASE : String := "https://www.law.cornell.edu"

/-- The `for dt in dl.find_all("dt"):` loop; `uj` is `urllib.parse.urljoin`,
`count` the current `len(out)`.  The length check runs after each append. -/
def collectCases (uj : String → String → String) (maxItems : Nat) :
    Nat → List DtNode → List CaseRec
  | _, [] => []
  | count, dt :: rest =>
    match dt.anchor with
    | none => collectCases uj maxItems count rest
    | some (text, href) =>
      let meta := dt.dd.getD ""
      let r : CaseRec :=
        { title := text, url := uj BASE href, meta := meta,
          decided := (decidedFind meta).getD "",
          docket := (docketFind meta).getD "" }
      if count + 1 ≥ maxItems then [r]
      else r :: collectCases uj maxItems (count + 1) rest

/-- `fetch_recent_cases`: `fetched` is the outcome of `fetch(TOC_URL)` plus
parsing — an exception there propagates uncaught; absent sections yield an
empty list. -/
def fetch_recent_cases (uj : String → String → String)
    (fetched : Except String ListingSoup) (maxItems : Nat) :
    Except String (List CaseRec) :=
  match fetched with
  | Except.error e => Except.error e
  | Except.ok soup =>
    if ¬ soup.recentH2 then Except.ok []
    else
      match soup.dl with
      | none => Except.ok []
      | some dts => Except.ok (collectCases uj maxItems 0 dts)

/-! ### `build_rss` — primary feed (rebuilt wholesale each run) -/

/-- The body of `build_rss`'s `for c in cases:` loop for one case
(`html_scotus_opinions.py`).  `fetchHtml` is the external transport,
`extractBody` the `extract_cornell_body_html` pipeline (external
BeautifulSoup manipulation), `pubDateOf` the `parse_decided_to_dt` result.
`body_html` keeps its assigned value even when the empty-after-strip check
raises (the `except` only records `scrape_error`). -/
def build_rss_entry (fetchHtml : String → Except String String)
    (extractBody : String → String) (pubDateOf : String → String)
    (c : CaseRec) : SumEntry :=
  let bodyErr : String × String :=
    match fetchHtml c.url with
    | Except.error e => ("", e)
    | Except.ok case_html =>
      let body := extractBody case_html
      if pyStrip body = "" then (body, "Could not extract body HTML.")
      else (body, "")
  let body_html := bodyErr.1
  let scrape_error := bodyErr.2
  let parts : List String :=
    ["<p><a href=\"" ++ xml_safe c.url ++ "\">Cornell</a></p>"]
    ++ (if c.meta ≠ "" then ["<p>" ++ xml_safe c.meta ++ "</p>"] else [])
    ++ (if scrape_error ≠ ""
        then ["<p><b>Error:</b> " ++ xml_safe scrape_error ++ "</p>"] else [])
    ++ [if body_html ≠ "" then body_html else ""]
  { guid := xml_safe c.url,
    title := xml_safe c.title,
    link := xml_safe c.url,
    pubDate := pubDateOf c.decided,
    description := xml_safe (String.intercalate "\n" (parts.filter (· ≠ ""))) }

/-- The entries `build_rss` emits for the fetched case list, in listing
order (channel metadata is constant; feedgen serialization external). -/
def build_rss_entries (fetchHtml : String → Except String String)
    (extractBody : String → String) (pubDateOf : String → String)
    (cases : List CaseRec) : List SumEntry :=
  cases.map (build_rss_entry fetchHtml extractBody pubDateOf)

/-! ### Concrete fixtures used to exercise the definitions -/

/-- Projection used to state facts about a written summary document. -/
def itemsGuidsOf (r : Except String (Option SummaryDoc × Nat)) : List String :=
  match r with
  | Except.ok (some d, _) => d.items.map SumItem.guid
  | _ => []

def demoItem : SrcItem :=
  { guid := "g1", title := "T1", link := "L1", pubDate := "",
    description_html := "x1" }

def demoItem2 : SrcItem :=
  { guid := "g2", title := "T2", link := "L2", pubDate := "",
    description_html := "x2" }

def demoOldDoc : SummaryDoc :=
  { chanTitle := none, chanLink := none, chanDescription := none,
    chanLanguage := none, lastBuildDate := some "OLD",
    items := [{ guid := "g1", title := "old", link := "l", pubDate := none,
                description := "d" }] }

def demoOldFile : SummaryFile := { channel := some demoOldDoc }

/-- The document written by
`update_summary_feed id (fun _ => ok "S2") ok "NOW" [demoItem2] demoOldFile`. -/
def demoRunDoc : SummaryDoc :=
  { chanTitle := none, chanLink := none, chanDescription := none,
    chanLanguage := none, lastBuildDate := some "NOW",
    items := [{ guid := "g1", title := "old", link := "l", pubDate := none,
                description := "d" },
              { guid := "g2", title := "T2", link := "L2", pubDate := none,
                description := "S2" }] }

def demoStaleEntry : CacheEntry :=
  { decided := "D", summary := "", updated_at := "t0" }

def demoStaleCache : Cache := [("u", demoStaleEntry)]

def demoGoodCache : Cache :=
  [("u", { decided := "D", summary := "S", updated_at := "t0" })]

def demoCase : CaseRec :=
  { title := "T", url := "u", meta := "", decided := "D", docket := "" }

def demoResp429Pattern : Nat → GResponse := fun i =>
  if i = 0 then
    { status := 429, body := "please retry in 2.0s", retryAfter := none,
      candidateText := "" }
  else
    { status := 200, body := "", retryAfter := none, candidateText := " OK " }

def demoResp503Header : Nat → GResponse := fun _ =>
  { status := 503, body := "unavailable", retryAfter := some "3",
    candidateText := "" }

def demoResp429Bare : Nat → GResponse := fun _ =>
  { status := 429, body := "quota exceeded", retryAfter := none,
    candidateText := "" }

def demoSoupNoH2 : ListingSoup := { recentH2 := false, dl := none }

def demoSoupNoDl : ListingSoup := { recentH2 := true, dl := none }

def demoSoupNoAnchors : ListingSoup :=
  { recentH2 := true, dl := some [{ anchor := none, dd := some "meta" }] }


/-! ## Helper lemmas -/

theorem charsLe_total : ∀ a b : List Char, charsLe a b = true ∨ charsLe b a = true
  | [], b => by simp [charsLe]
  | a :: as, [] => by simp [charsLe]
  | c :: cs, d :: ds => by
    by_cases h1 : c.val.toNat < d.val.toNat
    · simp [charsLe, h1]
    · by_cases h2 : d.val.toNat < c.val.toNat
      · simp [charsLe, h1, h2]
      · have := charsLe_total cs ds
        simpa [charsLe, h1, h2] using this

theorem charsLe_trans : ∀ a b c : List Char,
    charsLe a b = true → charsLe b c = true → charsLe a c = true
  | [], _, _, _, _ => by simp [charsLe]
  | a :: as, [], _, h, _ => by simp [charsLe] at h
  | a :: as, b :: bs, [], _, h => by simp [charsLe] at h
  | a :: as, b :: bs, c :: cs, h1, h2 => by
    simp only [charsLe] at h1 h2 ⊢
    split at h1
    · rename_i hab
      split at h2
      · rename_i hbc
        simp [show a.val.toNat < c.val.toNat by omega]
      · split at h2
        · simp_all
        · rename_i hba hcb
          simp [show a.val.toNat < c.val.toNat by omega]
    · split at h1
      · simp_all
      · rename_i hab hba
        split at h2
        · rename_i hbc
          simp [show a.val.toNat < c.val.toNat by omega]
        · split at h2
          · simp_all
          · rename_i hbc hcb
            have hnlt1 : ¬ a.val.toNat < c.val.toNat := by omega
            have hnlt2 : ¬ c.val.toNat < a.val.toNat := by omega
            simp [hnlt1, hnlt2, charsLe_trans as bs cs h1 h2]

theorem charsLe_antisymm : ∀ a b : List Char,
    charsLe a b = true → charsLe b a = true → a = b
  | [], [], _, _ => rfl
  | [], b :: bs, _, h => by simp [charsLe] at h
  | a :: as, [], h, _ => by simp [charsLe] at h
  | a :: as, b :: bs, h1, h2 => by
    simp only [charsLe] at h1 h2
    by_cases hab : a.val.toNat < b.val.toNat
    · rw [if_neg (by omega), if_pos hab] at h2
      exact absurd h2 (by simp)
    · by_cases hba : b.val.toNat < a.val.toNat
      · rw [if_neg hab, if_pos hba] at h1
        exact absurd h1 (by simp)
      · rw [if_neg hab, if_neg hba] at h1
        rw [if_neg hba, if_neg hab] at h2
        have hcd : a = b := Char.ext (UInt32.ext (by omega))
        rw [hcd, charsLe_antisymm as bs h1 h2]

theorem strLe_total (a b : String) : strLe a b = true ∨ strLe b a = true :=
  charsLe_total a.data b.data

theorem strLe_trans {a b c : String} (h1 : strLe a b = true) (h2 : strLe b c = true) :
    strLe a c = true :=
  charsLe_trans a.data b.data c.data h1 h2

theorem strLe_antisymm {a b : String} (h1 : strLe a b = true) (h2 : strLe b a = true) :
    a = b :=
  String.ext (charsLe_antisymm a.data b.data h1 h2)

theorem perm_insertByKey (p : String × CacheEntry) :
    ∀ l : List (String × CacheEntry), (insertByKey p l).Perm (p :: l)
  | [] => List.Perm.refl _
  | q :: t => by
    unfold insertByKey
    by_cases h : strLe p.1 q.1 = true
    · rw [if_pos h]
    · rw [if_neg h]
      exact ((perm_insertByKey p t).cons q).trans (List.Perm.swap p q t)

theorem mem_insertByKey {x p : String × CacheEntry} {l : List (String × CacheEntry)}
    (h : x ∈ insertByKey p l) : x = p ∨ x ∈ l := by
  have := (perm_insertByKey p l).mem_iff.mp h
  simpa using this

theorem sorted_insertByKey (p : String × CacheEntry) :
    ∀ {l : List (String × CacheEntry)}, List.Sorted keyLe l →
      List.Sorted keyLe (insertByKey p l)
  | [], _ => by simp [insertByKey]
  | q :: t, hs => by
    rw [List.sorted_cons] at hs
    obtain ⟨hq, ht⟩ := hs
    unfold insertByKey
    by_cases h : strLe p.1 q.1 = true
    · rw [if_pos h]
      rw [List.sorted_cons]
      refine ⟨?_, List.sorted_cons.mpr ⟨hq, ht⟩⟩
      intro b hb
      rcases List.mem_cons.mp hb with rfl | hb
      · exact h
      · exact strLe_trans h (hq b hb)
    · rw [if_neg h]
      rw [List.sorted_cons]
      refine ⟨?_, sorted_insertByKey p ht⟩
      intro b hb
      rcases mem_insertByKey hb with rfl | hb
      · rcases strLe_total q.1 b.1 with h' | h'
        · exact h'
        · exact absurd h' h
      · exact hq b hb

theorem sortByKey_perm : ∀ l : List (String × CacheEntry), (sortByKey l).Perm l
  | [] => List.Perm.refl _
  | p :: t => by
    unfold sortByKey
    exact (perm_insertByKey p (sortByKey t)).trans ((sortByKey_perm t).cons p)

theorem sortByKey_sorted : ∀ l : List (String × CacheEntry),
    List.Sorted keyLe (sortByKey l)
  | [] => by simp [sortByKey]
  | p :: t => sorted_insertByKey p (sortByKey_sorted t)

theorem sorted_perm_keysNodup_eq :
    ∀ (l₁ l₂ : List (String × CacheEntry)), l₁.Perm l₂ →
      List.Sorted keyLe l₁ → List.Sorted keyLe l₂ →
      (l₁.map Prod.fst).Nodup → l₁ = l₂
  | [], l₂, hp, _, _, _ => hp.nil_eq
  | a :: t, [], hp, _, _, _ => by
    have := hp.eq_nil
    simp at this
  | a :: t, b :: u, hp, hs₁, hs₂, hnd => by
    rw [List.sorted_cons] at hs₁ hs₂
    have hnd2 : (a.1 :: t.map Prod.fst).Nodup := by simpa using hnd
    have hcons := List.nodup_cons.mp hnd2
    by_cases hab : a = b
    · subst hab
      have := sorted_perm_keysNodup_eq t u hp.cons_inv hs₁.2 hs₂.2 hcons.2
      rw [this]
    · have hbmem : b ∈ a :: t := hp.mem_iff.mpr (List.mem_cons_self b u)
      have hamem : a ∈ b :: u := hp.mem_iff.mp (List.mem_cons_self a t)
      have hbt : b ∈ t := by
        rcases List.mem_cons.mp hbmem with h | h
        · exact absurd h.symm hab
        · exact h
      have hau : a ∈ u := by
        rcases List.mem_cons.mp hamem with h | h
        · exact absurd h hab
        · exact h
      have h1 : strLe a.1 b.1 = true := hs₁.1 b hbt
      have h2 : strLe b.1 a.1 = true := hs₂.1 a hau
      have hkey : a.1 = b.1 := strLe_antisymm h1 h2
      exact absurd (hkey ▸ List.mem_map_of_mem Prod.fst hbt) hcons.1

theorem serializeCache_perm {l₁ l₂ : Cache} (hp : l₁.Perm l₂)
    (hnd : (l₁.map Prod.fst).Nodup) : serializeCache l₁ = serializeCache l₂ := by
  have h₁ := sortByKey_perm l₁
  have h₂ := sortByKey_perm l₂
  have hperm : (sortByKey l₁).Perm (sortByKey l₂) := h₁.trans (hp.trans h₂.symm)
  have hnd' : ((sortByKey l₁).map Prod.fst).Nodup :=
    ((h₁.map Prod.fst).nodup_iff).mpr hnd
  have := sorted_perm_keysNodup_eq (sortByKey l₁) (sortByKey l₂) hperm
    (sortByKey_sorted l₁) (sortByKey_sorted l₂) hnd'
  unfold serializeCache
  rw [this]


theorem xml_safe_append (a b : String) :
    xml_safe (a ++ b) = xml_safe a ++ xml_safe b := by
  apply String.ext
  simp [xml_safe, String.data_append, List.filter_append]

theorem load_existing_eq (file : Option SummaryFile) :
    load_existing_summary_guids file
      = (channelItems file).filterMap (fun i =>
          let g := pyStrip i.guid
          if g = "" then none else some g) := by
  match file with
  | none => rfl
  | some f =>
    match h : f.channel with
    | none => simp [load_existing_summary_guids, channelItems, h]
    | some d => simp [load_existing_summary_guids, channelItems, h]

theorem summarizeMissingItem_ok_guid {h2t sumz mdr it s}
    (h : summarizeMissingItem h2t sumz mdr it = Except.ok s) :
    s.guid = xml_safe it.guid := by
  simp only [summarizeMissingItem] at h
  split at h
  · exact absurd h (by simp)
  · split at h
    · exact absurd h (by simp)
    · injection h with h
      rw [← h]
      rfl

theorem processMissing_ok_guids {h2t sumz mdr} :
    ∀ {l : List SrcItem} {out : List SumItem},
      processMissing h2t sumz mdr l = Except.ok out →
      out.map SumItem.guid = l.map (fun it => xml_safe it.guid)
  | [], out, h => by
    simp only [processMissing] at h
    injection h with h
    simp [← h]
  | it :: rest, out, h => by
    simp only [processMissing] at h
    rcases h1 : summarizeMissingItem h2t sumz mdr it with e | s
    · rw [h1] at h; exact absurd h (by simp)
    · rw [h1] at h
      rcases h2 : processMissing h2t sumz mdr rest with e | others
      · rw [h2] at h; exact absurd h (by simp)
      · rw [h2] at h
        injection h with h
        subst h
        simp [summarizeMissingItem_ok_guid h1, processMissing_ok_guids h2]

theorem ensure_channel_items {now file ch}
    (h : (ensure_summary_feed_root now file).channel = some ch) :
    ch.items = channelItems file := by
  match file with
  | none =>
    simp only [ensure_summary_feed_root] at h
    injection h with h
    rw [← h]
    rfl
  | some f =>
    simp only [ensure_summary_feed_root] at h
    simp [channelItems, h]

theorem update_ok_some_elim {h2t sumz mdr now feedItems file doc n}
    (h : update_summary_feed h2t sumz mdr now feedItems file
          = Except.ok (some doc, n)) :
    ∃ newItems, processMissing h2t sumz mdr (missingItems feedItems file)
        = Except.ok newItems
      ∧ doc.items = channelItems file ++ newItems
      ∧ doc.lastBuildDate = some now
      ∧ n = newItems.length := by
  unfold update_summary_feed at h
  by_cases he : (missingItems feedItems file).isEmpty
  · rw [if_pos he] at h
    injection h with h
    rw [Prod.mk.injEq] at h
    exact absurd h.1 (by simp)
  · rw [if_neg he] at h
    rcases hch : (ensure_summary_feed_root now file).channel with _ | ch
    · rw [hch] at h
      exact absurd h (by simp)
    · rw [hch] at h
      rcases hpm : processMissing h2t sumz mdr (missingItems feedItems file)
        with e | newItems
      · rw [hpm] at h
        exact absurd h (by simp)
      · rw [hpm] at h
        injection h with h
        rw [Prod.mk.injEq] at h
        obtain ⟨hd1, hd2⟩ := h
        injection hd1 with hd1
        refine ⟨newItems, rfl, ?_, ?_, hd2.symm⟩
        · rw [← hd1]
          show ch.items ++ newItems = channelItems file ++ newItems
          rw [ensure_channel_items hch]
        · rw [← hd1]

theorem update_noop_of_missing_nil {h2t sumz mdr now feedItems file}
    (h : missingItems feedItems file = []) :
    update_summary_feed h2t sumz mdr now feedItems file = Except.ok (none, 0) := by
  unfold update_summary_feed
  rw [h]
  rfl


theorem mem_missing_iff {feedItems : List SrcItem} {file : Option SummaryFile}
    {it : SrcItem} :
    it ∈ missingItems feedItems file ↔
      it ∈ feedItems ∧ it.guid ≠ "" ∧
        ¬ ((load_existing_summary_guids file).contains it.guid = true) := by
  unfold missingItems
  rw [List.mem_filter]
  simp

theorem missing_nil_of_all_present {feedItems : List SrcItem}
    {file : Option SummaryFile}
    (h : ∀ it ∈ feedItems, (load_existing_summary_guids file).contains it.guid = true) :
    missingItems feedItems file = [] := by
  unfold missingItems
  apply List.filter_eq_nil_iff.mpr
  intro it hmem
  have hin : it.guid ∈ load_existing_summary_guids file := by simpa using h it hmem
  simp [hin]

theorem guid_mem_load_of_mem_items {doc : SummaryDoc} {g : String}
    (hg : g ≠ "") {j : SumItem} (hj : j ∈ doc.items) (hstrip : pyStrip j.guid = g) :
    (load_existing_summary_guids (some { channel := some doc })).contains g = true := by
  have hload : load_existing_summary_guids (some { channel := some doc })
      = doc.items.filterMap (fun i =>
          let g := pyStrip i.guid
          if g = "" then none else some g) := load_existing_eq _
  have : g ∈ doc.items.filterMap (fun i =>
      let g := pyStrip i.guid
      if g = "" then none else some g) := by
    rw [List.mem_filterMap]
    exact ⟨j, hj, by simp [hstrip, hg]⟩
  rw [hload]
  simpa using this

theorem missing_nil_after_update {h2t sumz mdr now feedItems file doc n}
    (hstable : ∀ it ∈ feedItems, xml_safe it.guid = it.guid ∧ pyStrip it.guid = it.guid)
    (h : update_summary_feed h2t sumz mdr now feedItems file = Except.ok (some doc, n)) :
    missingItems feedItems (some { channel := some doc }) = [] := by
  obtain ⟨newItems, hpm, hitems, _, _⟩ := update_ok_some_elim h
  unfold missingItems
  apply List.filter_eq_nil_iff.mpr
  intro it hmem
  by_cases hg : it.guid = ""
  · simp [hg]
  · suffices hsuff :
        (load_existing_summary_guids (some { channel := some doc })).contains it.guid
          = true by
      have hin : it.guid ∈ load_existing_summary_guids (some { channel := some doc }) := by
        simpa using hsuff
      simp [hin]
    by_cases hc : (load_existing_summary_guids file).contains it.guid = true
    · -- already present before the run: its contributing item is preserved
      have : it.guid ∈ load_existing_summary_guids file := by simpa using hc
      rw [load_existing_eq] at this
      rw [List.mem_filterMap] at this
      obtain ⟨i, hi, hφ⟩ := this
      have hstrip : pyStrip i.guid = it.guid := by
        by_cases h0 : pyStrip i.guid = ""
        · simp [h0] at hφ
        · simp [h0] at hφ
          exact hφ
      exact guid_mem_load_of_mem_items hg
        (by rw [hitems]; exact List.mem_append_left _ hi) hstrip
    · -- it was appended during this run
      have hmm : it ∈ missingItems feedItems file :=
        mem_missing_iff.mpr ⟨hmem, hg, hc⟩
      have hguids := processMissing_ok_guids hpm
      have : xml_safe it.guid ∈ newItems.map SumItem.guid := by
        rw [hguids]
        exact List.mem_map_of_mem _ hmm
      rw [List.mem_map] at this
      obtain ⟨j, hj, hjg⟩ := this
      have hstable' := hstable it hmem
      have hjg' : j.guid = it.guid := by rw [hjg, hstable'.1]
      exact guid_mem_load_of_mem_items hg
        (by rw [hitems]; exact List.mem_append_right _ hj)
        (by rw [hjg', hstable'.2])


theorem build_summary_rss_length (f : String → Except String String)
    (x : String → String) (s : String → Except String String)
    (now : String) (pd : String → String) :
    ∀ (cache : Cache) (cases : List CaseRec),
      (build_summary_rss f x s now pd cache cases).1.length = cases.length
  | _, [] => rfl
  | cache, c :: rest => by
    simp only [build_summary_rss, List.length_cons]
    rw [build_summary_rss_length f x s now pd _ rest]

theorem freshCase_usedCache (f x s now pd cache c) :
    (freshCase f x s now pd cache c).usedCache = false := by
  unfold freshCase
  split <;> rfl

theorem processCase_not_cached {f x s now pd cache c}
    (h : (processCase f x s now pd cache c).usedCache = false) :
    processCase f x s now pd cache c = freshCase f x s now pd cache c := by
  rcases hl : List.lookup c.url cache with _ | entry
  · unfold processCase
    rw [hl]
  · by_cases hcond : entry.decided = c.decided ∧ entry.summary ≠ ""
    · exfalso
      have ht : (processCase f x s now pd cache c).usedCache = true := by
        unfold processCase
        rw [hl]
        dsimp only
        rw [if_pos hcond]
      rw [ht] at h
      exact Bool.noConfusion h
    · unfold processCase
      rw [hl]
      dsimp only
      rw [if_neg hcond]

theorem xml_safe_fallbackPre : xml_safe fallbackPre = fallbackPre := by decide

theorem fallbackPre_decompose (e' : String) :
    (∃ v, fallbackPre ++ e' = "Background:" ++ v)
    ∧ (∃ u v, fallbackPre ++ e' = u ++ "Holding:" ++ v)
    ∧ (∃ u v, fallbackPre ++ e' = u ++ "Reasoning:" ++ v)
    ∧ (∃ u v, fallbackPre ++ e' = u ++ "Outcome:" ++ v)
    ∧ (∃ u, fallbackPre ++ e' = u ++ ("Error: " ++ e')) := by
  refine ⟨⟨"\nNot stated.\n\nHolding:\nNot stated.\n\nReasoning:\nNot stated.\n\nOutcome:\nNot stated.\n\nError: " ++ e', ?_⟩,
          ⟨"Background:\nNot stated.\n\n", "\nNot stated.\n\nReasoning:\nNot stated.\n\nOutcome:\nNot stated.\n\nError: " ++ e', ?_⟩,
          ⟨"Background:\nNot stated.\n\nHolding:\nNot stated.\n\n", "\nNot stated.\n\nOutcome:\nNot stated.\n\nError: " ++ e', ?_⟩,
          ⟨"Background:\nNot stated.\n\nHolding:\nNot stated.\n\nReasoning:\nNot stated.\n\n", "\nNot stated.\n\nError: " ++ e', ?_⟩,
          ⟨"Background:\nNot stated.\n\nHolding:\nNot stated.\n\nReasoning:\nNot stated.\n\nOutcome:\nNot stated.\n\n", ?_⟩⟩
  · rw [show fallbackPre = "Background:" ++ "\nNot stated.\n\nHolding:\nNot stated.\n\nReasoning:\nNot stated.\n\nOutcome:\nNot stated.\n\nError: " by decide]
    rw [String.append_assoc]
  · rw [show fallbackPre = ("Background:\nNot stated.\n\n" ++ "Holding:") ++ "\nNot stated.\n\nReasoning:\nNot stated.\n\nOutcome:\nNot stated.\n\nError: " by decide]
    rw [String.append_assoc]
  · rw [show fallbackPre = ("Background:\nNot stated.\n\nHolding:\nNot stated.\n\n" ++ "Reasoning:") ++ "\nNot stated.\n\nOutcome:\nNot stated.\n\nError: " by decide]
    rw [String.append_assoc]
  · rw [show fallbackPre = ("Background:\nNot stated.\n\nHolding:\nNot stated.\n\nReasoning:\nNot stated.\n\n" ++ "Outcome:") ++ "\nNot stated.\n\nError: " by decide]
    rw [String.append_assoc]
  · rw [show fallbackPre = "Background:\nNot stated.\n\nHolding:\nNot stated.\n\nReasoning:\nNot stated.\n\nOutcome:\nNot stated.\n\n" ++ "Error: " by decide]
    rw [String.append_assoc]


/-- Claim C1: for every run of `update_summary_feed` over an existing summary
document and any sequence of primary-feed items, the set of guids in the
summary document after the run is a superset of the set before the run, and
every item already present before the run is unchanged after the run — new
items are only appended to the channel, never replacing or re-ordering prior
items. -/
theorem claim_C1_append_only_growth
    (h2t : String → String) (sumz mdr : String → Except String String)
    (now : String) (feedItems : List SrcItem) (file : Option SummaryFile)
    (doc : SummaryDoc) (n : Nat)
    (h : update_summary_feed h2t sumz mdr now feedItems file
          = Except.ok (some doc, n)) :
    (∃ newItems, doc.items = channelItems file ++ newItems)
    ∧ ∀ g ∈ (channelItems file).map SumItem.guid,
        g ∈ doc.items.map SumItem.guid := by
  obtain ⟨newItems, _, hitems, _, _⟩ := update_ok_some_elim h
  refine ⟨⟨newItems, hitems⟩, ?_⟩
  intro g hg
  rw [hitems, List.map_append]
  exact List.mem_append_left _ hg

theorem claim_C1_append_only_growth_witness :
    (∃ newItems, demoRunDoc.items = channelItems (some demoOldFile) ++ newItems)
    ∧ ∀ g ∈ (channelItems (some demoOldFile)).map SumItem.guid,
        g ∈ demoRunDoc.items.map SumItem.guid :=
  claim_C1_append_only_growth (fun s => s) (fun _ => Except.ok "S2")
    (fun s => Except.ok s) "NOW" [demoItem2] (some demoOldFile) demoRunDoc 1
    (by rfl)

/-- Claim C2: `update_summary_feed` is a no-op when every primary-feed item's
guid is already present in the existing summary document: it returns 0, makes
no summarization calls (the result does not depend on the summarizer), does
not rewrite the file and does not touch `lastBuildDate`; consequently a second
run over the document written by a first run (with sanitization-stable guids)
adds zero items and leaves the document unchanged. -/
theorem claim_C2_noop_idempotence :
    (∀ (h2t : String → String) (sumz mdr : String → Except String String)
       (now : String) (feedItems : List SrcItem) (file : Option SummaryFile),
       (∀ it ∈ feedItems,
          (load_existing_summary_guids file).contains it.guid = true) →
       update_summary_feed h2t sumz mdr now feedItems file = Except.ok (none, 0))
    ∧ (∀ (h2t h2t' : String → String)
         (sumz sumz' mdr mdr' : String → Except String String)
         (now now' : String) (feedItems : List SrcItem)
         (file : Option SummaryFile) (doc : SummaryDoc) (n : Nat),
       (∀ it ∈ feedItems, xml_safe it.guid = it.guid ∧ pyStrip it.guid = it.guid) →
       update_summary_feed h2t sumz mdr now feedItems file
         = Except.ok (some doc, n) →
       update_summary_feed h2t' sumz' mdr' now' feedItems
         (some { channel := some doc }) = Except.ok (none, 0)) := by
  constructor
  · intro h2t sumz mdr now feedItems file h
    exact update_noop_of_missing_nil (missing_nil_of_all_present h)
  · intro h2t h2t' sumz sumz' mdr mdr' now now' feedItems file doc n hstable h
    exact update_noop_of_missing_nil (missing_nil_after_update hstable h)

theorem claim_C2_noop_idempotence_witness :
    update_summary_feed (fun s => s) (fun _ => Except.ok "S")
      (fun s => Except.ok s) "NOW" [demoItem] (some demoOldFile)
      = Except.ok (none, 0)
    ∧ update_summary_feed (fun s => s) (fun _ => Except.ok "X")
        (fun s => Except.ok s) "NOW2" [demoItem2]
        (some { channel := some demoRunDoc }) = Except.ok (none, 0) :=
  ⟨claim_C2_noop_idempotence.1 (fun s => s) (fun _ => Except.ok "S")
      (fun s => Except.ok s) "NOW" [demoItem] (some demoOldFile) (by decide),
   claim_C2_noop_idempotence.2 (fun s => s) (fun s => s)
      (fun _ => Except.ok "S2") (fun _ => Except.ok "X")
      (fun s => Except.ok s) (fun s => Except.ok s) "NOW" "NOW2" [demoItem2]
      (some demoOldFile) demoRunDoc 1 (by decide) (by rfl)⟩

/-- Claim C9: whenever the markdown renderer raises, `md_to_html`'s fallback
branch raises `NameError` (it references the undefined name
`REQUIRED_HEADINGS`) instead of returning the minimal fallback HTML; the
fallback path can never return normally. -/
theorem claim_C9_fallback_name_error :
    (∀ md, md_to_html_fallback md
        = Except.error "NameError: name REQUIRED_HEADINGS is not defined")
    ∧ (∀ (render : String → Except String String) (md e : String),
        render (pyStrip md) = Except.error e →
        md_to_html render md
          = Except.error "NameError: name REQUIRED_HEADINGS is not defined") := by
  constructor
  · intro md
    rfl
  · intro render md e h
    simp only [md_to_html]
    rw [h]
    rfl

theorem claim_C9_fallback_name_error_witness :
    md_to_html (fun _ => Except.error "boom") "hi"
      = Except.error "NameError: name REQUIRED_HEADINGS is not defined" :=
  claim_C9_fallback_name_error.2 (fun _ => Except.error "boom") "hi" "boom"
    (by rfl)

/-- Claim C10: a primary-feed item whose guid is the empty string is never
selected for summarization and never appended by `update_summary_feed`;
consequently (when the pre-existing items have non-empty guids and the feed
guids are sanitization-stable) every item of the written summary document has
a non-empty guid. -/
theorem claim_C10_no_empty_guid
    (h2t : String → String) (sumz mdr : String → Except String String)
    (now : String) (feedItems : List SrcItem) (file : Option SummaryFile) :
    (∀ it ∈ missingItems feedItems file, it.guid ≠ "")
    ∧ (∀ doc n,
        update_summary_feed h2t sumz mdr now feedItems file
          = Except.ok (some doc, n) →
        (∀ old ∈ channelItems file, old.guid ≠ "") →
        (∀ it ∈ feedItems, xml_safe it.guid = it.guid) →
        ∀ j ∈ doc.items, j.guid ≠ "") := by
  constructor
  · intro it hit
    exact (mem_missing_iff.mp hit).2.1
  · intro doc n h hold hstable j hj
    obtain ⟨newItems, hpm, hitems, _, _⟩ := update_ok_some_elim h
    rw [hitems] at hj
    rcases List.mem_append.mp hj with hjo | hjn
    · exact hold j hjo
    · have hguids := processMissing_ok_guids hpm
      have hmem : j.guid ∈ newItems.map SumItem.guid := List.mem_map_of_mem _ hjn
      rw [hguids, List.mem_map] at hmem
      obtain ⟨it, hitmem, hguid⟩ := hmem
      have hmm := mem_missing_iff.mp hitmem
      rw [← hguid, hstable it hmm.1]
      exact hmm.2.1

theorem claim_C10_no_empty_guid_witness :
    demoItem2.guid ≠ ""
    ∧ ({ guid := "g2", title := "T2", link := "L2", pubDate := none,
         description := "S2" } : SumItem).guid ≠ "" :=
  ⟨(claim_C10_no_empty_guid (fun s => s) (fun _ => Except.ok "S2")
      (fun s => Except.ok s) "NOW" [demoItem2] (some demoOldFile)).1
      demoItem2 (by decide),
   (claim_C10_no_empty_guid (fun s => s) (fun _ => Except.ok "S2")
      (fun s => Except.ok s) "NOW" [demoItem2] (some demoOldFile)).2
      demoRunDoc 1 (by rfl) (by decide) (by decide)
      { guid := "g2", title := "T2", link := "L2", pubDate := none,
        description := "S2" } (by decide)⟩


theorem guid_mem_load_of_mem_channel {file : Option SummaryFile} {g : String}
    (hg : g ≠ "") {j : SumItem} (hj : j ∈ channelItems file)
    (hstrip : pyStrip j.guid = g) :
    (load_existing_summary_guids file).contains g = true := by
  have : g ∈ (channelItems file).filterMap (fun i =>
      let g := pyStrip i.guid
      if g = "" then none else some g) := by
    rw [List.mem_filterMap]
    exact ⟨j, hj, by simp [hstrip, hg]⟩
  rw [load_existing_eq]
  simpa using this

theorem processCase_entry_guid (f : String → Except String String)
    (x : String → String) (s : String → Except String String)
    (now : String) (pd : String → String) (cache : Cache) (c : CaseRec) :
    (processCase f x s now pd cache c).entry.guid = xml_safe c.url := by
  unfold processCase
  split
  · split
    · rfl
    · unfold freshCase
      split <;> rfl
  · unfold freshCase
    split <;> rfl

theorem build_summary_rss_guids (f : String → Except String String)
    (x : String → String) (s : String → Except String String)
    (now : String) (pd : String → String) :
    ∀ (cache : Cache) (cases : List CaseRec),
      (build_summary_rss f x s now pd cache cases).1.map SumEntry.guid
        = cases.map (fun c => xml_safe c.url)
  | _, [] => rfl
  | cache, c :: rest => by
    simp only [build_summary_rss, List.map_cons]
    rw [processCase_entry_guid, build_summary_rss_guids f x s now pd _ rest]

theorem build_rss_guids (fetchHtml : String → Except String String)
    (extractBody : String → String) (pubDateOf : String → String)
    (cases : List CaseRec) :
    (build_rss_entries fetchHtml extractBody pubDateOf cases).map SumEntry.guid
      = cases.map (fun c => xml_safe c.url) := by
  unfold build_rss_entries
  rw [List.map_map]
  rfl

theorem mapUrls_nodup_of_clean {cases : List CaseRec}
    (hurls : (cases.map CaseRec.url).Nodup)
    (hclean : ∀ c ∈ cases, xml_safe c.url = c.url) :
    (cases.map (fun c => xml_safe c.url)).Nodup := by
  rw [List.map_congr_left (fun c hc => hclean c hc)]
  exact hurls

/-- Claim C4 (counterexample): when the current source sequence itself
contains two items with the same guid/url in a single run, every published
output document contains that guid twice — in the incremental summary
document written by `update_summary_feed`, in the summaries feed emitted by
`build_summary_rss`, and in the primary feed emitted by `build_rss`; the
published guids are not pairwise distinct. -/
theorem claim_C4_counterexample :
    ¬ (itemsGuidsOf (update_summary_feed (fun s => s) (fun _ => Except.ok "S")
        (fun s => Except.ok s) "NOW" [demoItem, demoItem] none)).Nodup
    ∧ ¬ (((build_summary_rss (fun _ => Except.ok "H") (fun t => t)
          (fun _ => Except.ok "FRESH") "NOW" (fun d => d) []
          [demoCase, demoCase]).1).map SumEntry.guid).Nodup
    ∧ ¬ ((build_rss_entries (fun _ => Except.ok "B") (fun t => t) (fun d => d)
          [demoCase, demoCase]).map SumEntry.guid).Nodup := by
  refine ⟨by decide, by decide, by decide⟩

/-- Claim C4 (amended): each published output document's guids are pairwise
distinct provided the source sequence's guids/urls within the run are
pairwise distinct and sanitization-stable — for the summary document written
by `update_summary_feed` additionally provided the pre-existing document's
guids are pairwise distinct and strip-stable; when the source repeats a
guid within one run, the duplicate is published twice. -/
theorem claim_C4_distinct_guids
    (h2t : String → String) (sumz mdr : String → Except String String)
    (now : String) (feedItems : List SrcItem) (file : Option SummaryFile)
    (doc : SummaryDoc) (n : Nat)
    (f : String → Except String String) (x : String → String)
    (s : String → Except String String) (nowIso : String)
    (pd pdB : String → String) (cache : Cache) (cases : List CaseRec)
    (fetchB : String → Except String String) (extractB : String → String) :
    (update_summary_feed h2t sumz mdr now feedItems file
        = Except.ok (some doc, n) →
      (feedItems.map SrcItem.guid).Nodup →
      (∀ it ∈ feedItems, xml_safe it.guid = it.guid) →
      ((channelItems file).map SumItem.guid).Nodup →
      (∀ old ∈ channelItems file, pyStrip old.guid = old.guid) →
      (doc.items.map SumItem.guid).Nodup)
    ∧ ((cases.map CaseRec.url).Nodup →
       (∀ c ∈ cases, xml_safe c.url = c.url) →
       ((build_summary_rss f x s nowIso pd cache cases).1.map
          SumEntry.guid).Nodup)
    ∧ ((cases.map CaseRec.url).Nodup →
       (∀ c ∈ cases, xml_safe c.url = c.url) →
       ((build_rss_entries fetchB extractB pdB cases).map
          SumEntry.guid).Nodup) := by
  refine ⟨?_, ?_, ?_⟩
  · intro h hfeed hclean hold holdstrip
    obtain ⟨newItems, hpm, hitems, _, _⟩ := update_ok_some_elim h
    rw [hitems, List.map_append]
    have hsub : List.Sublist (missingItems feedItems file) feedItems := by
      unfold missingItems
      exact List.filter_sublist _
    have hnew_guids : newItems.map SumItem.guid
        = (missingItems feedItems file).map (fun it => xml_safe it.guid) :=
      processMissing_ok_guids hpm
    have hxml_eq : (missingItems feedItems file).map (fun it => xml_safe it.guid)
        = (missingItems feedItems file).map SrcItem.guid :=
      List.map_congr_left (fun it hit => hclean it (mem_missing_iff.mp hit).1)
    have hnew_nodup : (newItems.map SumItem.guid).Nodup := by
      rw [hnew_guids, hxml_eq]
      exact hfeed.sublist (hsub.map SrcItem.guid)
    refine hold.append hnew_nodup ?_
    intro g hgo hgn
    rw [hnew_guids, hxml_eq, List.mem_map] at hgn
    obtain ⟨it, hitmem, rfl⟩ := hgn
    rw [List.mem_map] at hgo
    obtain ⟨old, holdmem, holdg⟩ := hgo
    have hmm := mem_missing_iff.mp hitmem
    have hcontains : (load_existing_summary_guids file).contains it.guid = true :=
      guid_mem_load_of_mem_channel hmm.2.1 holdmem
        (by rw [holdstrip old holdmem, holdg])
    exact hmm.2.2 hcontains
  · intro hurls hclean
    rw [build_summary_rss_guids]
    exact mapUrls_nodup_of_clean hurls hclean
  · intro hurls hclean
    rw [build_rss_guids]
    exact mapUrls_nodup_of_clean hurls hclean

theorem claim_C4_distinct_guids_witness :
    (demoRunDoc.items.map SumItem.guid).Nodup
    ∧ ((build_summary_rss (fun _ => Except.ok "H") (fun t => t)
          (fun _ => Except.ok "FRESH") "NOW" (fun d => d) []
          [demoCase]).1.map SumEntry.guid).Nodup
    ∧ ((build_rss_entries (fun _ => Except.ok "B") (fun t => t) (fun d => d)
          [demoCase]).map SumEntry.guid).Nodup :=
  ⟨(claim_C4_distinct_guids (fun s => s) (fun _ => Except.ok "S2")
      (fun s => Except.ok s) "NOW" [demoItem2] (some demoOldFile) demoRunDoc 1
      (fun _ => Except.ok "H") (fun t => t) (fun _ => Except.ok "FRESH") "NOW"
      (fun d => d) (fun d => d) [] [demoCase] (fun _ => Except.ok "B")
      (fun t => t)).1
      (by rfl) (by decide) (by decide) (by decide) (by decide),
   (claim_C4_distinct_guids (fun s => s) (fun _ => Except.ok "S2")
      (fun s => Except.ok s) "NOW" [demoItem2] (some demoOldFile) demoRunDoc 1
      (fun _ => Except.ok "H") (fun t => t) (fun _ => Except.ok "FRESH") "NOW"
      (fun d => d) (fun d => d) [] [demoCase] (fun _ => Except.ok "B")
      (fun t => t)).2.1
      (by decide) (by decide),
   (claim_C4_distinct_guids (fun s => s) (fun _ => Except.ok "S2")
      (fun s => Except.ok s) "NOW" [demoItem2] (some demoOldFile) demoRunDoc 1
      (fun _ => Except.ok "H") (fun t => t) (fun _ => Except.ok "FRESH") "NOW"
      (fun d => d) (fun d => d) [] [demoCase] (fun _ => Except.ok "B")
      (fun t => t)).2.2
      (by decide) (by decide)⟩


/-- Claim C5 (counterexample): in `update_summary_feed` a permanent
summarization failure on one item aborts the whole reconciliation — the
failing item is not published with a placeholder, and the already summarized
first item of the same run is not persisted either (nothing is written). -/
theorem claim_C5_counterexample :
    update_summary_feed (fun s => s)
      (fun t => if t = "x2" then Except.error "boom" else Except.ok "S")
      (fun s => Except.ok s) "NOW" [demoItem, demoItem2] none
      = Except.error "boom" := by
  rfl

/-- Claim C5 (amended): in `build_summary_rss` a case whose extraction or
summarization fails permanently is still published: its entry carries the
placeholder with all four required section headings and the error text, the
cache is left untouched for it, and the loop emits one entry per case (the
failure never aborts the batch). -/
theorem claim_C5_placeholder_fallback
    (f : String → Except String String) (x : String → String)
    (s : String → Except String String) (now : String) (pd : String → String)
    (cache : Cache) (cases : List CaseRec) (c : CaseRec) (e : String) :
    (build_summary_rss f x s now pd cache cases).1.length = cases.length
    ∧ ((processCase f x s now pd cache c).usedCache = false →
       attemptSummary f x s c.url = Except.error e →
         (processCase f x s now pd cache c).cache = cache
         ∧ (processCase f x s now pd cache c).entry
             = mkSummaryEntry c pd (fallbackSummary e)
         ∧ (processCase f x s now pd cache c).entry.description
             = fallbackPre ++ xml_safe e
         ∧ (∃ v, (processCase f x s now pd cache c).entry.description
               = "Background:" ++ v)
         ∧ (∃ u v, (processCase f x s now pd cache c).entry.description
               = u ++ "Holding:" ++ v)
         ∧ (∃ u v, (processCase f x s now pd cache c).entry.description
               = u ++ "Reasoning:" ++ v)
         ∧ (∃ u v, (processCase f x s now pd cache c).entry.description
               = u ++ "Outcome:" ++ v)
         ∧ (∃ u, (processCase f x s now pd cache c).entry.description
               = u ++ ("Error: " ++ xml_safe e))) := by
  refine ⟨build_summary_rss_length f x s now pd cache cases, ?_⟩
  intro hnc herr
  have hfresh := processCase_not_cached hnc
  have hfc : freshCase f x s now pd cache c
      = { entry := mkSummaryEntry c pd (fallbackSummary e), cache := cache,
          usedCache := false } := by
    unfold freshCase
    rw [herr]
  rw [hfresh, hfc]
  have hdesc : (mkSummaryEntry c pd (fallbackSummary e)).description
      = fallbackPre ++ xml_safe e := by
    show xml_safe (fallbackSummary e) = fallbackPre ++ xml_safe e
    rw [fallbackSummary, xml_safe_append, xml_safe_fallbackPre]
  obtain ⟨hbg, hho, hre, hoc, her⟩ := fallbackPre_decompose (xml_safe e)
  exact ⟨rfl, rfl, hdesc, hdesc ▸ hbg, hdesc ▸ hho, hdesc ▸ hre, hdesc ▸ hoc,
         hdesc ▸ her⟩

theorem claim_C5_placeholder_fallback_witness :
    (build_summary_rss (fun _ => Except.error "down") (fun t => t)
        (fun _ => Except.ok "SUM") "NOW" (fun d => d) [] []).1.length = 0
    ∧ ((processCase (fun _ => Except.error "down") (fun t => t)
          (fun _ => Except.ok "SUM") "NOW" (fun d => d) [] demoCase).cache = []
       ∧ (processCase (fun _ => Except.error "down") (fun t => t)
            (fun _ => Except.ok "SUM") "NOW" (fun d => d) [] demoCase).entry
           = mkSummaryEntry demoCase (fun d => d) (fallbackSummary "down")
       ∧ (processCase (fun _ => Except.error "down") (fun t => t)
            (fun _ => Except.ok "SUM") "NOW" (fun d => d) [] demoCase).entry.description
           = fallbackPre ++ xml_safe "down"
       ∧ (∃ v, (processCase (fun _ => Except.error "down") (fun t => t)
            (fun _ => Except.ok "SUM") "NOW" (fun d => d) [] demoCase).entry.description
           = "Background:" ++ v)
       ∧ (∃ u v, (processCase (fun _ => Except.error "down") (fun t => t)
            (fun _ => Except.ok "SUM") "NOW" (fun d => d) [] demoCase).entry.description
           = u ++ "Holding:" ++ v)
       ∧ (∃ u v, (processCase (fun _ => Except.error "down") (fun t => t)
            (fun _ => Except.ok "SUM") "NOW" (fun d => d) [] demoCase).entry.description
           = u ++ "Reasoning:" ++ v)
       ∧ (∃ u v, (processCase (fun _ => Except.error "down") (fun t => t)
            (fun _ => Except.ok "SUM") "NOW" (fun d => d) [] demoCase).entry.description
           = u ++ "Outcome:" ++ v)
       ∧ (∃ u, (processCase (fun _ => Except.error "down") (fun t => t)
            (fun _ => Except.ok "SUM") "NOW" (fun d => d) [] demoCase).entry.description
           = u ++ ("Error: " ++ xml_safe "down"))) :=
  ⟨(claim_C5_placeholder_fallback (fun _ => Except.error "down") (fun t => t)
      (fun _ => Except.ok "SUM") "NOW" (fun d => d) [] [] demoCase "down").1,
   (claim_C5_placeholder_fallback (fun _ => Except.error "down") (fun t => t)
      (fun _ => Except.ok "SUM") "NOW" (fun d => d) [] [] demoCase "down").2
      (by decide) (by rfl)⟩

/-- Claim C3 (counterexample): a cached entry whose decided-date fingerprint
equals the case's current decided date is nevertheless NOT reused when its
stored summary is empty — extraction and summarization run again and the
fresh summary is published. -/
theorem claim_C3_counterexample :
    List.lookup demoCase.url demoStaleCache = some demoStaleEntry
    ∧ demoStaleEntry.decided = demoCase.decided
    ∧ (processCase (fun _ => Except.ok "H") (fun t => t)
        (fun _ => Except.ok "FRESH") "NOW" (fun d => d) demoStaleCache
        demoCase).usedCache = false
    ∧ (processCase (fun _ => Except.ok "H") (fun t => t)
        (fun _ => Except.ok "FRESH") "NOW" (fun d => d) demoStaleCache
        demoCase).entry.description = "FRESH" := by
  decide

/-- Claim C3 (amended): the cached entry for a case's url is reused (no
extraction or summarization call) if and only if the entry exists, its stored
decided-date fingerprint equals the case's current decided date AND its
stored summary is non-empty; on reuse the cache is unchanged and the cached
summary is what gets published. -/
theorem claim_C3_cache_validity
    (f : String → Except String String) (x : String → String)
    (s : String → Except String String) (now : String) (pd : String → String)
    (cache : Cache) (c : CaseRec) :
    ((processCase f x s now pd cache c).usedCache
      = match List.lookup c.url cache with
        | some e => decide (e.decided = c.decided ∧ e.summary ≠ "")
        | none => false)
    ∧ ((processCase f x s now pd cache c).usedCache = true →
        (processCase f x s now pd cache c).cache = cache
        ∧ ∃ e, List.lookup c.url cache = some e ∧ e.decided = c.decided
            ∧ e.summary ≠ ""
            ∧ (processCase f x s now pd cache c).entry
                = mkSummaryEntry c pd e.summary) := by
  rcases hl : List.lookup c.url cache with _ | entry
  · constructor
    · unfold processCase
      rw [hl]
      dsimp only
      rw [freshCase_usedCache]
    · intro htrue
      exfalso
      have : (processCase f x s now pd cache c).usedCache = false := by
        unfold processCase
        rw [hl]
        dsimp only
        rw [freshCase_usedCache]
      rw [this] at htrue
      exact Bool.noConfusion htrue
  · by_cases hcond : entry.decided = c.decided ∧ entry.summary ≠ ""
    · have hp : processCase f x s now pd cache c
          = { entry := mkSummaryEntry c pd entry.summary, cache := cache,
              usedCache := true } := by
        unfold processCase
        rw [hl]
        dsimp only
        rw [if_pos hcond]
      constructor
      · rw [hp]
        simp [hcond]
      · intro _
        exact ⟨by rw [hp], entry, rfl, hcond.1, hcond.2, by rw [hp]⟩
    · have hp : processCase f x s now pd cache c
          = freshCase f x s now pd cache c := by
        unfold processCase
        rw [hl]
        dsimp only
        rw [if_neg hcond]
      constructor
      · rw [hp, freshCase_usedCache]
        simp [hcond]
      · intro htrue
        exfalso
        rw [hp, freshCase_usedCache] at htrue
        exact Bool.noConfusion htrue

theorem claim_C3_cache_validity_witness :
    (processCase (fun _ => Except.ok "H") (fun t => t)
        (fun _ => Except.ok "FRESH") "NOW" (fun d => d) demoGoodCache
        demoCase).cache = demoGoodCache
    ∧ ∃ e, List.lookup demoCase.url demoGoodCache = some e
        ∧ e.decided = demoCase.decided ∧ e.summary ≠ ""
        ∧ (processCase (fun _ => Except.ok "H") (fun t => t)
            (fun _ => Except.ok "FRESH") "NOW" (fun d => d) demoGoodCache
            demoCase).entry = mkSummaryEntry demoCase (fun d => d) e.summary :=
  (claim_C3_cache_validity (fun _ => Except.ok "H") (fun t => t)
      (fun _ => Except.ok "FRESH") "NOW" (fun d => d) demoGoodCache
      demoCase).2 (by decide)


theorem postsIn_candidateLoop_le (resp : Nat → GResponse) :
    ∀ (fuel i : Nat), postsIn (candidateLoop resp fuel i).1 ≤ fuel
  | 0, _ => by simp [candidateLoop, postsIn]
  | fuel + 1, i => by
    have ih := postsIn_candidateLoop_le resp fuel (i + 1)
    simp only [candidateLoop]
    split
    · simp [postsIn]
    · split
      · simp [postsIn]
      · split
        · split
          · simp only [postsIn] at ih
            simp [postsIn, List.countP_cons]
            omega
          · simp [postsIn]
          · split
            · split
              · simp only [postsIn] at ih
                simp [postsIn, List.countP_cons]
                omega
              · simp [postsIn]
            · simp [postsIn]
        · simp [postsIn]

theorem PyFloat.addHalf_val (q : PyFloat) : q.addHalf.val = q.val + 1/2 := by
  rcases q with ⟨m, e⟩
  rcases e with _ | e
  · simp only [PyFloat.addHalf, PyFloat.val]
    push_cast
    field_simp
    ring
  · simp only [PyFloat.addHalf, PyFloat.val]
    push_cast
    rw [div_add_div _ _ (by positivity) (by norm_num : (2 : ℚ) ≠ 0)]
    rw [div_eq_div_iff (by positivity) (by positivity)]
    rw [pow_succ]
    ring

/-- Claim C6: in the retry loop of `gemini_summarize`, for every 429/503
response: a parsed "retry in Xs" duration makes the loop sleep X + 0.5 and
retry the same candidate (at most 8 attempts per candidate); with no pattern
but a numeric Retry-After header the loop sleeps header + 0.5 and retries;
with neither (or a non-numeric header) the failure surfaces immediately as a
raised error — no invented backoff. -/
theorem claim_C6_retry_policy :
    (∀ resp : Nat → GResponse, postsIn (candidateLoop resp 8 0).1 ≤ 8)
    ∧ (∀ q : PyFloat, q.addHalf.val = q.val + 1/2)
    ∧ (∀ (resp : Nat → GResponse) (fuel i : Nat) (s : String) (q : PyFloat),
        ((resp i).status = 429 ∨ (resp i).status = 503) →
        retryInFind (resp i).body = some s → pyFloat s = some q →
        candidateLoop resp (fuel + 1) i
          = (Event.post i :: Event.sleepFor q.addHalf
               :: (candidateLoop resp fuel (i + 1)).1,
             (candidateLoop resp fuel (i + 1)).2))
    ∧ (∀ (resp : Nat → GResponse) (fuel i : Nat) (ra : String) (q : PyFloat),
        ((resp i).status = 429 ∨ (resp i).status = 503) →
        retryInFind (resp i).body = none →
        (resp i).retryAfter = some ra → pyFloat ra = some q →
        candidateLoop resp (fuel + 1) i
          = (Event.post i :: Event.sleepFor q.addHalf
               :: (candidateLoop resp fuel (i + 1)).1,
             (candidateLoop resp fuel (i + 1)).2))
    ∧ (∀ (resp : Nat → GResponse) (fuel i : Nat),
        ((resp i).status = 429 ∨ (resp i).status = 503) →
        retryInFind (resp i).body = none →
        ((resp i).retryAfter = none ∨
          ∃ ra, (resp i).retryAfter = some ra ∧ pyFloat ra = none) →
        candidateLoop resp (fuel + 1) i
          = ([Event.post i], CandRes.raised (apiErrMsg (resp i)))) := by
  have hn200 : ∀ r : GResponse, (r.status = 429 ∨ r.status = 503) →
      ¬ r.status = 200 := by
    rintro r (h | h) <;> omega
  have hn404 : ∀ r : GResponse, (r.status = 429 ∨ r.status = 503) →
      ¬ r.status = 404 := by
    rintro r (h | h) <;> omega
  refine ⟨fun resp => postsIn_candidateLoop_le resp 8 0, PyFloat.addHalf_val,
          ?_, ?_, ?_⟩
  · intro resp fuel i s q hst hfind hparse
    unfold candidateLoop
    rw [if_neg (hn200 _ hst), if_neg (hn404 _ hst), if_pos hst]
    simp only [maybe_sleep_retry_in, hfind, hparse]
    rw [candidateLoop.eq_def]
    rfl
  · intro resp fuel i ra q hst hfind hra hparse
    unfold candidateLoop
    rw [if_neg (hn200 _ hst), if_neg (hn404 _ hst), if_pos hst]
    simp only [maybe_sleep_retry_in, hfind, hra, hparse]
    rw [candidateLoop.eq_def]
    rfl
  · intro resp fuel i hst hfind hra
    unfold candidateLoop
    rw [if_neg (hn200 _ hst), if_neg (hn404 _ hst), if_pos hst]
    simp only [maybe_sleep_retry_in, hfind]
    rcases hra with hra | ⟨ra, hra, hparse⟩
    · rw [hra]
    · rw [hra]
      simp only [hparse]

theorem claim_C6_retry_policy_witness :
    candidateLoop demoResp429Pattern 8 0
      = (Event.post 0 :: Event.sleepFor (PyFloat.addHalf ⟨20, 1⟩)
           :: (candidateLoop demoResp429Pattern 7 1).1,
         (candidateLoop demoResp429Pattern 7 1).2)
    ∧ candidateLoop demoResp503Header 8 0
      = (Event.post 0 :: Event.sleepFor (PyFloat.addHalf ⟨3, 0⟩)
           :: (candidateLoop demoResp503Header 7 1).1,
         (candidateLoop demoResp503Header 7 1).2)
    ∧ candidateLoop demoResp429Bare 8 0
      = ([Event.post 0], CandRes.raised (apiErrMsg (demoResp429Bare 0))) :=
  ⟨claim_C6_retry_policy.2.2.1 demoResp429Pattern 7 0 "2.0" ⟨20, 1⟩
      (Or.inl (by decide)) (by decide) (by decide),
   claim_C6_retry_policy.2.2.2.1 demoResp503Header 7 0 "3" ⟨3, 0⟩
      (Or.inr (by decide)) (by decide) (by decide) (by decide),
   claim_C6_retry_policy.2.2.2.2 demoResp429Bare 7 0
      (Or.inl (by decide)) (by decide) (Or.inl (by decide))⟩


/-- Claim C7 (counterexample): `save_cache` performs no write-then-rename — no
rename of any temporary file onto the cache path appears among its file
operations; it opens the target path itself for writing. -/
theorem claim_C7_counterexample :
    ¬ ∃ src dst, FsAction.rename src dst ∈ save_cache demoGoodCache := by
  rintro ⟨src, dst, hmem⟩
  simp [save_cache] at hmem

/-- Claim C7 (amended): `save_cache` writes the serialized mapping directly
into the target path (makedirs, open-for-write, write; no temporary file and
no rename, so a crash mid-write can leave a truncated file); the
serialization is deterministic in key ordering: two insertion orders of the
same mapping produce identical bytes. -/
theorem claim_C7_cache_write
    (l₁ l₂ c : Cache) :
    (l₁.Perm l₂ → (l₁.map Prod.fst).Nodup →
      serializeCache l₁ = serializeCache l₂)
    ∧ save_cache c = [FsAction.makedirs "data", FsAction.openWrite CACHE_PATH,
        FsAction.writeStr (serializeCache c)]
    ∧ ∀ a ∈ save_cache c, a.isRename = false := by
  refine ⟨fun hp hnd => serializeCache_perm hp hnd, rfl, ?_⟩
  intro a ha
  simp only [save_cache, List.mem_cons, List.not_mem_nil, or_false] at ha
  rcases ha with rfl | rfl | rfl <;> rfl

theorem claim_C7_cache_write_witness :
    serializeCache
        [("b", { decided := "1", summary := "2", updated_at := "3" }),
         ("a", { decided := "4", summary := "5", updated_at := "6" })]
      = serializeCache
        [("a", { decided := "4", summary := "5", updated_at := "6" }),
         ("b", { decided := "1", summary := "2", updated_at := "3" })]
    ∧ ∀ a ∈ save_cache demoGoodCache, a.isRename = false :=
  ⟨(claim_C7_cache_write
      [("b", { decided := "1", summary := "2", updated_at := "3" }),
       ("a", { decided := "4", summary := "5", updated_at := "6" })]
      [("a", { decided := "4", summary := "5", updated_at := "6" }),
       ("b", { decided := "1", summary := "2", updated_at := "3" })]
      demoGoodCache).1 (by decide) (by decide),
   (claim_C7_cache_write [] [] demoGoodCache).2.2⟩

theorem collectCases_no_anchor (uj : String → String → String) (maxItems : Nat) :
    ∀ (count : Nat) (dts : List DtNode), (∀ dt ∈ dts, dt.anchor = none) →
      collectCases uj maxItems count dts = []
  | _, [], _ => rfl
  | count, dt :: rest, h => by
    unfold collectCases
    rw [h dt (List.mem_cons_self dt rest)]
    exact collectCases_no_anchor uj maxItems count rest
      (fun d hd => h d (List.mem_cons_of_mem dt hd))

/-- Claim C8 (counterexample): when the listing cannot be retrieved (the
fetch raises), `fetch_recent_cases` does not return an empty list — the
exception propagates out of it, so the run does not complete with no-op
output. -/
theorem claim_C8_counterexample :
    fetch_recent_cases (fun _ href => href) (Except.error "connection error") 10
      ≠ Except.ok [] := by
  intro h
  exact Except.noConfusion h

/-- Claim C8 (amended): an unparseable listing is non-fatal — a missing
"Most Recent Decisions" heading, a missing `dl`, or `dt` entries without
anchors all yield the empty case list — but a failed fetch propagates as an
error instead of yielding an empty list. -/
theorem claim_C8_listing_tolerance
    (uj : String → String → String) (e : String) (max : Nat)
    (soup : ListingSoup) :
    fetch_recent_cases uj (Except.error e) max = Except.error e
    ∧ (soup.recentH2 = false →
        fetch_recent_cases uj (Except.ok soup) max = Except.ok [])
    ∧ (soup.dl = none →
        fetch_recent_cases uj (Except.ok soup) max = Except.ok [])
    ∧ (∀ dts, soup.dl = some dts → (∀ dt ∈ dts, dt.anchor = none) →
        fetch_recent_cases uj (Except.ok soup) max = Except.ok []) := by
  refine ⟨rfl, ?_, ?_, ?_⟩
  · intro h
    simp [fetch_recent_cases, h]
  · intro h
    rcases hh : soup.recentH2 with _ | _
    · simp [fetch_recent_cases, hh]
    · simp [fetch_recent_cases, hh, h]
  · intro dts hdl hnone
    rcases hh : soup.recentH2 with _ | _
    · simp [fetch_recent_cases, hh]
    · simp [fetch_recent_cases, hh, hdl,
        collectCases_no_anchor uj max 0 dts hnone]

theorem claim_C8_listing_tolerance_witness :
    fetch_recent_cases (fun _ href => href) (Except.ok demoSoupNoH2) 10
      = Except.ok []
    ∧ fetch_recent_cases (fun _ href => href) (Except.ok demoSoupNoDl) 10
      = Except.ok []
    ∧ fetch_recent_cases (fun _ href => href) (Except.ok demoSoupNoAnchors) 10
      = Except.ok [] :=
  ⟨(claim_C8_listing_tolerance (fun _ href => href) "" 10 demoSoupNoH2).2.1
      (by rfl),
   (claim_C8_listing_tolerance (fun _ href => href) "" 10 demoSoupNoDl).2.2.1
      (by rfl),
   (claim_C8_listing_tolerance (fun _ href => href) "" 10
      demoSoupNoAnchors).2.2.2 [{ anchor := none, dd := some "meta" }]
      (by rfl) (by decide)⟩

end ScotusRss
